import Mathlib

/-!
Verification development for the chat-assistant repository (src/main.py).

The Python source is shallowly embedded: Python `str` values are modelled as
`List Char` (called `Str` below), Python `dict`s (which preserve insertion
order) as association lists, and the per-conversation playback machinery as an
explicit state record with a small-step semantics whose steps are the atomic
code segments between `await` suspension points of the asyncio event loop.
-/

set_option maxRecDepth 4000

/-- Models a Python `str` value as its character list. -/
abbrev Str := List Char

/-- The apostrophe character (used inside several source patterns). -/
def apos : Char := Char.ofNat 39

/-- Characters treated as whitespace by Python `str.strip()` / `\s` (ASCII part). -/
def isPySpace (c : Char) : Bool :=
  c = ' ' || c = '\t' || c = '\n' || c = '\r' || c = Char.ofNat 11 || c = Char.ofNat 12

/-- Python `str.lower()` restricted to ASCII (all inputs in the source are ASCII). -/
def pyLower (s : Str) : Str := s.map Char.toLower

/-- Python `str.strip()`: remove leading and trailing whitespace. -/
def pyStrip (s : Str) : Str :=
  ((s.dropWhile isPySpace).reverse.dropWhile isPySpace).reverse

/-- Python `str.split(d)` for a single-character separator `d`
(keeps empty pieces, exactly like `song.split(delimiter)` in the source). -/
def pySplit (d : Char) : Str → List Str
  | [] => [[]]
  | c :: cs =>
    let r := pySplit d cs
    if c = d then [] :: r
    else
      match r with
      | [] => [[c]]
      | x :: xs => (c :: x) :: xs

/-- Python `str.title()` (ASCII): uppercase each letter that does not follow a
letter, lowercase every other letter. -/
def pyTitleAux : Bool → Str → Str
  | _, [] => []
  | prevAlpha, c :: cs =>
    if c.isAlpha then
      (if prevAlpha then c.toLower else c.toUpper) :: pyTitleAux true cs
    else
      c :: pyTitleAux false cs

/-- Python `str.title()` on a string. -/
def pyTitle (s : Str) : Str := pyTitleAux false s

/-- Whether `needle` occurs as a contiguous substring of `hay` (Python `in`). -/
def containsSub (hay needle : Str) : Bool :=
  (List.range (hay.length + 1)).any (fun i => needle.isPrefixOf (hay.drop i))

/- ### extract_songs_from_text (src/main.py lines 226-248) -/

/-- The ordered delimiter list of `extract_songs_from_text`. -/
def delimiters : List Char := ['\n', ',', ';', '|', '-', '•', '*']

/-- One pass of the splitting loop body in the source: split every current fragment
on `d`, strip each piece, and keep the non-empty ones
(`temp.extend([s.strip() for s in song.split(delimiter) if s.strip()])`). -/
def splitRound (songs : List Str) (d : Char) : List Str :=
  songs.flatMap (fun song => ((pySplit d song).map pyStrip).filter (fun s => s ≠ []))

/-- The numbering substitution of the source (regex `^\d+[.)]\s*` replaced by the empty string): drop one leading run of
digits followed by a dot or closing parenthesis and trailing whitespace. -/
def removeNumbering (s : Str) : Str :=
  let ds := s.takeWhile Char.isDigit
  if ds = [] then s
  else
    match s.drop ds.length with
    | c :: rest => if c = '.' ∨ c = ')' then rest.dropWhile isPySpace else s
    | [] => s

/-- The bullet substitution of the source (regex `^[-•*]\s*` replaced by the empty string): drop one leading bullet
character and trailing whitespace. -/
def removeBullet (s : Str) : Str :=
  match s with
  | c :: rest => if c = '-' ∨ c = '•' ∨ c = '*' then rest.dropWhile isPySpace else s
  | [] => s

/-- The per-song cleanup of `extract_songs_from_text`: numbering removal, then
bullet removal, then strip. -/
def cleanSong (s : Str) : Str := pyStrip (removeBullet (removeNumbering s))

/-- The body of the clean-up loop in the source: clean the token and keep it when
non-empty and longer than two characters (`if song and len(song) > 2`). -/
def cleanStep (acc : List Str) (song : Str) : List Str :=
  let song := cleanSong song
  if song ≠ [] ∧ song.length > 2 then acc ++ [song] else acc

/-- Embeds `extract_songs_from_text` (src/main.py lines 226-248): split the items text
on the ordered delimiter list, clean each token, keep tokens longer than two
characters. -/
def extract_songs_from_text (text : Str) : List Str :=
  (delimiters.foldl splitRound [text]).foldl cleanStep []

/-- Decides whether `removeNumbering` would alter the token: a leading digit
run followed by a dot or closing parenthesis. -/
def startsNumbering (s : Str) : Bool :=
  let ds := s.takeWhile Char.isDigit
  if ds = [] then false
  else
    match s.drop ds.length with
    | c :: _ => decide (c = '.' ∨ c = ')')
    | [] => false

/- ### A small backtracking pattern matcher (models the `re.search` calls).

The source uses a handful of fixed regular expressions.  Each is encoded as a
sequence of pattern atoms; `matchSeq` implements the leftmost, greedy,
backtracking semantics of Python for exactly the constructs those regexes use. -/

/-- One atom of a source regex: a literal, a non-capturing greedy class
repetition (`[..]*`), a capturing greedy class repetition (`([..]+)`), or a
capturing alternation of literal words (`(w1|w2|...)`). -/
inductive Pat : Type
  | lit (l : Str)
  | star (p : Char → Bool)
  | grpPlus (p : Char → Bool)
  | grpAlt (alts : List Str)

/-- All ways to split `s` into a prefix drawn from the class `p` and a rest,
longest prefix first (the greedy repetition of Python, with backtracking). -/
def classSplits (p : Char → Bool) (s : Str) : List (Nat × Str) :=
  let run := (s.takeWhile p).length
  (List.range (run + 1)).reverse.map (fun n => (n, s.drop n))

/-- Match a pattern-atom sequence at the beginning of `s`; on success return
the captured groups and the unconsumed rest.  Greedy atoms try the longest
consumption first and backtrack, exactly like Python `re`. -/
def matchSeq : List Pat → Str → Option (List Str × Str)
  | [], s => some ([], s)
  | Pat.lit l :: ps, s =>
    if l.isPrefixOf s then matchSeq ps (s.drop l.length) else none
  | Pat.star p :: ps, s =>
    (classSplits p s).findSome? (fun nr => matchSeq ps nr.2)
  | Pat.grpPlus p :: ps, s =>
    ((classSplits p s).filter (fun nr => nr.1 ≠ 0)).findSome?
      (fun nr => (matchSeq ps nr.2).map (fun cr => (s.take nr.1 :: cr.1, cr.2)))
  | Pat.grpAlt alts :: ps, s =>
    alts.findSome? (fun a =>
      if a.isPrefixOf s then
        (matchSeq ps (s.drop a.length)).map (fun cr => (a :: cr.1, cr.2))
      else none)

/-- Helper for `reSearch`: try to match at offset `pos`, then at `pos + 1`, ... -/
def reSearchAux (pats : List Pat) : Str → Nat → Option (List Str × Nat)
  | s, pos =>
    match matchSeq pats s with
    | some (caps, rest) => some (caps, pos + (s.length - rest.length))
    | none =>
      match s with
      | [] => none
      | _ :: t => reSearchAux pats t (pos + 1)

/-- Python `re.search`: the leftmost match wins; returns the captured groups
and the absolute end offset of the match (`match.end()`). -/
def reSearch (pats : List Pat) (s : Str) : Option (List Str × Nat) :=
  reSearchAux pats s 0

/-- The class `[a-zA-Z\s]` of the source patterns. -/
def isAlphaSpace (c : Char) : Bool := c.isAlpha || isPySpace c

/-- The class `[:\s]` of the source patterns. -/
def isColonSpace (c : Char) : Bool := c = ':' || isPySpace c

/-- The class `[^\n]` of the source patterns. -/
def isNotNewline (c : Char) : Bool := c ≠ '\n'

/- ### detect_playlist_creation (src/main.py lines 164-204) -/

/-- The ordered `playlist_patterns` list of `detect_playlist_creation`. -/
def playlist_patterns : List (List Pat) :=
  [ [Pat.lit "create playlist".toList, Pat.star isColonSpace, Pat.grpPlus isNotNewline],
    [Pat.lit "my ".toList, Pat.grpPlus isAlphaSpace, Pat.lit " playlist".toList,
      Pat.star isColonSpace, Pat.grpPlus isNotNewline],
    [Pat.grpPlus isAlphaSpace, Pat.lit " mood songs".toList,
      Pat.star isColonSpace, Pat.grpPlus isNotNewline],
    [Pat.lit "playlist name".toList, Pat.star isColonSpace, Pat.grpPlus isNotNewline] ]

/-- The ordered `mood_patterns` list of `detect_playlist_creation`. -/
def mood_patterns : List (List Pat) :=
  [ [Pat.lit ("when i".toList ++ [apos] ++ "m ".toList),
      Pat.grpAlt (["sad", "happy", "angry", "excited", "chill", "romantic",
        "energetic"].map String.toList),
      Pat.star isColonSpace, Pat.grpPlus isNotNewline],
    [Pat.lit "for ".toList,
      Pat.grpAlt (["workout", "study", "sleep", "party", "driving",
        "relaxation"].map String.toList),
      Pat.star isColonSpace, Pat.grpPlus isNotNewline] ]

/-- The `for pattern in playlist_patterns` loop of `detect_playlist_creation`:
two-group patterns yield `(group(1).strip(), group(2).strip())`; one-group
patterns yield `(group(1).strip(), message[match.end():].strip())` where the
slice is taken from the original (un-lowercased) message. -/
def tryCreationPatterns (message ml : Str) : List (List Pat) → Option (Str × Str)
  | [] => none
  | pats :: rest =>
    match reSearch pats ml with
    | none => tryCreationPatterns message ml rest
    | some (caps, e) =>
      match caps with
      | [g1, g2] => some (pyStrip g1, pyStrip g2)
      | g1 :: _ => some (pyStrip g1, pyStrip (message.drop e))
      | [] => none

/-- The `for pattern in mood_patterns` loop of `detect_playlist_creation`:
the name is `f"{match.group(1).title()} Mood"`, the items text `group(2).strip()`. -/
def tryMoodPatterns (ml : Str) : List (List Pat) → Option (Str × Str)
  | [] => none
  | pats :: rest =>
    match reSearch pats ml with
    | some ([g1, g2], _) => some (pyTitle g1 ++ " Mood".toList, pyStrip g2)
    | _ => tryMoodPatterns ml rest

/-- Embeds `detect_playlist_creation` (src/main.py lines 164-204): lowercase the
message, try the playlist patterns in order, then the mood patterns.  Returns
the playlist name and the raw items text, or none. -/
def detect_playlist_creation (message : Str) : Option (Str × Str) :=
  let ml := pyLower message
  match tryCreationPatterns message ml playlist_patterns with
  | some r => some r
  | none => tryMoodPatterns ml mood_patterns

/- ### detect_playlist_request (src/main.py lines 206-224) -/

/-- The ordered pattern list of `detect_playlist_request`. -/
def request_patterns : List (List Pat) :=
  [ [Pat.lit "play my ".toList, Pat.grpPlus isAlphaSpace, Pat.lit " playlist".toList],
    [Pat.lit "play ".toList, Pat.grpPlus isAlphaSpace, Pat.lit " playlist".toList],
    [Pat.lit "start my ".toList, Pat.grpPlus isAlphaSpace, Pat.lit " songs".toList],
    [Pat.lit "put on my ".toList, Pat.grpPlus isAlphaSpace, Pat.lit " music".toList],
    [Pat.lit "i want to hear my ".toList, Pat.grpPlus isAlphaSpace,
      Pat.lit " playlist".toList] ]

/-- The pattern loop of `detect_playlist_request`: first match wins, returning
`group(1).strip()`. -/
def tryRequestPatterns (ml : Str) : List (List Pat) → Option Str
  | [] => none
  | pats :: rest =>
    match reSearch pats ml with
    | some (g1 :: _, _) => some (pyStrip g1)
    | _ => tryRequestPatterns ml rest

/-- Embeds `detect_playlist_request` (src/main.py lines 206-224). -/
def detect_playlist_request (message : Str) : Option Str :=
  tryRequestPatterns (pyLower message) request_patterns

/- ### Choice detection and the unified intent classifier.

src/main.py contains no choice/selection handling at all (no "or"/"vs"
patterns, no options extraction); the spec describes it as part of the
IntentClassifier core.  It is therefore modelled from the spec below. -/

/-- Modelled from the spec: trailing-question-mark test used by the choice
trigger ("a separator token combined with a trailing question mark"). -/
def trailingQuestion (ml : Str) : Bool :=
  (pyStrip ml).getLast? = some '?'

/-- Modelled from the spec: choice phrasing trigger — "detected by either
explicit connective keywords (should I / which is better / cannot-decide phrasing)
OR the presence of a separator token (or, vs, versus,
either-or) combined with a trailing question mark".  `ml` is the lowercased
utterance. -/
def choiceTriggered (ml : Str) : Bool :=
  containsSub ml "should i".toList
  || containsSub ml "which is better".toList
  || containsSub ml ("can".toList ++ [apos] ++ "t decide".toList)
  || ((containsSub ml " or ".toList || containsSub ml " vs ".toList
        || containsSub ml " versus ".toList
        || (containsSub ml "either".toList && containsSub ml " or ".toList))
      && trailingQuestion ml)

/-- Split `m` at the first case-insensitive occurrence of `sep`, returning the
case-preserving left and right parts. -/
def splitCI (sep m : Str) : Option (Str × Str) :=
  match (List.range (m.length + 1)).find?
      (fun i => sep.isPrefixOf ((pyLower m).drop i)) with
  | some i => some (m.take i, m.drop (i + sep.length))
  | none => none

/-- Modelled from the spec: the fixed set of leading filler words stripped from
each extracted option. -/
def fillerWords : List Str :=
  (["should i", "to", "the", "a", "an", "go", "do", "eat", "watch", "play",
    "buy"]).map String.toList

/-- Modelled from the spec: strip trailing punctuation from an option. -/
def stripTrailingPunct (s : Str) : Str :=
  (s.reverse.dropWhile (fun c => c = '?' || c = '!' || c = '.' || c = ',')).reverse

/-- Modelled from the spec: repeatedly remove a leading filler word (followed
by a space) from an option; fuel-bounded by the option length. -/
def dropFillers : Nat → Str → Str
  | 0, s => s
  | fuel + 1, s =>
    match fillerWords.find? (fun f => (f ++ [' ']).isPrefixOf (pyLower s)) with
    | some f => dropFillers fuel (s.drop (f.length + 1))
    | none => s

/-- Modelled from the spec: option cleaning — strip whitespace, leading filler
words and trailing punctuation. -/
def cleanOption (s : Str) : Str :=
  pyStrip (stripTrailingPunct (dropFillers s.length (pyStrip s)))

/-- Modelled from the spec: drop one leading word "either" (with following
space) from an option of the "either A or B" pattern. -/
def dropEitherWord (s : Str) : Str :=
  let t := pyStrip s
  if "either ".toList.isPrefixOf (pyLower t) then t.drop 7 else t

/-- Modelled from the spec: raw option extraction "in order of preference: an
explicit A-or-B pattern, a comma-separated list pattern, an A-vs/versus-B
pattern, an either-A-or-B pattern" (the explicit A-or-B pattern is taken
not to apply when the utterance uses the either-or form, which the last
pattern handles). -/
def rawOptions (m : Str) : List Str :=
  let ml := pyLower m
  if containsSub ml " or ".toList && !containsSub ml "either".toList then
    match splitCI " or ".toList m with
    | some (a, b) => [a, b]
    | none => []
  else if containsSub ml ",".toList then
    pySplit ',' m
  else if containsSub ml " vs ".toList then
    match splitCI " vs ".toList m with
    | some (a, b) => [a, b]
    | none => []
  else if containsSub ml " versus ".toList then
    match splitCI " versus ".toList m with
    | some (a, b) => [a, b]
    | none => []
  else if containsSub ml "either".toList && containsSub ml " or ".toList then
    match splitCI " or ".toList m with
    | some (a, b) => [dropEitherWord a, b]
    | none => []
  else []

/-- Modelled from the spec: choice detection — trigger on the lowercased
utterance, extract options case-preservingly, clean them, and accept "only if
at least two non-empty cleaned options remain". -/
def detect_choice (m : Str) : Option (List Str) :=
  if choiceTriggered (pyLower m) then
    let opts := ((rawOptions m).map cleanOption).filter (fun s => s ≠ [])
    if 2 ≤ opts.length then some opts else none
  else none

/-- The classified intent of one utterance (spec §3). -/
inductive Intent : Type
  | CreateCollection (name : Str) (items : List Str)
  | PlayRequest (query : Str)
  | ChoiceRequest (options : List Str)
  | NoMatch
deriving DecidableEq

/-- Modelled from the spec: the unified IntentClassifier with fixed precedence
creation > playback-request > choice > none (spec §4.1).  src/main.py has no
single classifier; it calls `detect_playlist_creation` (private chats) and
`detect_playlist_request` (groups) from separate `handle_message` branches and
has no choice detection.  The creation and playback detectors used here are
the source embeddings above; an accepted creation additionally needs a
non-empty extracted item list, as in `handle_message` (`if songs:`). -/
def classify (m : Str) : Intent :=
  match detect_playlist_creation m with
  | some (name, songsText) =>
    let items := extract_songs_from_text songsText
    if items.isEmpty then Intent.NoMatch else Intent.CreateCollection name items
  | none =>
    match detect_playlist_request m with
    | some q => Intent.PlayRequest q
    | none =>
      match detect_choice m with
      | some opts => Intent.ChoiceRequest opts
      | none => Intent.NoMatch

/- ### The playlist store (src/main.py lines 114-162).

Python dicts preserve insertion order and are modelled as association lists;
`setA` models dict assignment (update the first matching key in place, else
append at the end) and `lookupA` models dict lookup. -/

/-- Dict lookup on an association list. -/
def lookupA {κ α : Type} [DecidableEq κ] : List (κ × α) → κ → Option α
  | [], _ => none
  | (k', v) :: t, k => if k' = k then some v else lookupA t k

/-- Dict assignment on an association list: overwrite the first matching key
in place, or append a new entry at the end (Python dict insertion order). -/
def setA {κ α : Type} [DecidableEq κ] : List (κ × α) → κ → α → List (κ × α)
  | [], k, v => [(k, v)]
  | (k', v') :: t, k, v => if k' = k then (k', v) :: t else (k', v') :: setA t k v

/-- The stored data of one playlist (the dict with fields songs, created_date and user_name). -/
structure PlaylistData : Type where
  songs : List Str
  created_date : Str
  user_name : Str
deriving DecidableEq, Inhabited

/-- The playlists of one user: `self.user_playlists[user_id]`. -/
abbrev UserPlaylists := List (Str × PlaylistData)

/-- The whole store: `self.user_playlists`. -/
abbrev PlaylistStore := List (Nat × UserPlaylists)

/-- Embeds `add_to_playlist` (src/main.py lines 114-131): create the user entry and
the playlist entry if absent (`created_date` is the caller-supplied current
timestamp `now`), then append each song that is not already in the list —
membership is the Python `in` operator, i.e. exact string equality. -/
def add_to_playlist (store : PlaylistStore) (user_id : Nat) (playlist_name : Str)
    (songs : List Str) (user_name : Str) (now : Str) : PlaylistStore :=
  let store := if (lookupA store user_id).isNone then setA store user_id [] else store
  let upl := (lookupA store user_id).getD []
  let upl :=
    if (lookupA upl playlist_name).isNone then
      setA upl playlist_name ⟨[], now, user_name⟩
    else upl
  let pd := (lookupA upl playlist_name).getD default
  let newSongs := songs.foldl (fun acc song => if song ∈ acc then acc else acc ++ [song]) pd.songs
  setA store user_id (setA upl playlist_name { pd with songs := newSongs })

/-- The song list stored for a given user and playlist name (empty if absent). -/
def collectionSongs (store : PlaylistStore) (user_id : Nat) (playlist_name : Str) : List Str :=
  ((lookupA ((lookupA store user_id).getD []) playlist_name).getD default).songs

/-- Embeds `find_playlist_by_name` (src/main.py lines 155-162): the first playlist
(in dict insertion order) whose lowercased name contains the lowercased query
as a substring or vice versa. -/
def find_playlist_by_name : UserPlaylists → Str → Option (Str × PlaylistData)
  | [], _ => none
  | (name, pd) :: t, query =>
    if containsSub (pyLower name) (pyLower query)
        || containsSub (pyLower query) (pyLower name) then
      some (name, pd)
    else find_playlist_by_name t query

/-- Embeds `find_song_in_user_playlists` (src/main.py lines 137-153): scan the playlists of the
user in insertion order, songs in list order, and return the first song
related to the query by case-insensitive substring containment in either
direction, together with its playlist name. -/
def find_song_in_user_playlists (upl : UserPlaylists) (song_name : Str) : Option (Str × Str) :=
  upl.findSome? (fun nd =>
    nd.2.songs.findSome? (fun song =>
      if containsSub (pyLower song) (pyLower song_name)
          || containsSub (pyLower song_name) (pyLower song) then
        some (song, nd.1)
      else none))

/- ### The sequential playback scheduler (src/main.py lines 336-551).

The model below describes everything the source keeps for one fixed
conversation (`chat_id`): the handlers only ever touch their own
`group_music_queue[chat_id]` / `group_current_song[chat_id]` entries, so
entries for distinct conversations are independent and one slot suffices.

Python object aliasing matters here: `auto_play_sequence` captures the dict
object `queue_data` before sleeping, while a superseding `/play` may replace
the *map entry* with a fresh dict.  The model therefore keeps an arena
(`store`) of every queue dict ever created; `installed` is the map entry
(an arena index or none), and the phase of each scheduler loop records which arena
index it captured before its sleep.  Steps are the atomic code segments
between `await` suspension points; one loop iteration has the shape
top-check → sleep → wake-work, giving the two loop steps below. -/

/-- One queue dict created by `play_playlist_sequentially`
(`self.group_music_queue[chat_id] = {...}`).  The timestamp field is omitted
(write-only in the source). -/
structure QueueData : Type where
  queue : List Str
  current_song : Str
  current_index : Nat
  playlist_name : Str
  requested_by : Str
  auto_play : Bool
deriving DecidableEq, Inhabited

/-- The notifications the conversation receives, abstracted to their
triggering condition and data fields (the load-bearing content per the spec).
`nowPlaying` covers every message announcing the currently playing queue item:
the initial one sent by `play_playlist_sequentially`, the Auto-Next one sent
by `auto_play_sequence`, and the Skipped one sent by `next_command`. -/
inductive Note : Type
  | nowPlaying (song : Str)
  | completed
  | finishedLast
  | stopped (played total : Nat)
  | noActiveQueue
  | emptyPlaylist
  | redirectPrivate
  | playHelp
  | singleSong (song : Str)
  | playlistCreated (name : Str)
  | playlistNotFound (query : Str)
  | llmReply
deriving DecidableEq

/-- Where one `auto_play_sequence` loop is: about to run its `while` head,
suspended in `asyncio.sleep(10)` having captured arena index `r` as its
`queue_data`, or terminated. -/
inductive LoopPhase : Type
  | atTop
  | sleeping (r : Nat)
  | exited
deriving DecidableEq

/-- The per-conversation state: the arena of queue dicts, the
`group_music_queue[chat_id]` entry, the phases of every `auto_play_sequence`
task spawned for this conversation, the notifications sent so far, and the
`group_current_song[chat_id]` entry (song, playlist). -/
structure SchedState : Type where
  store : List QueueData
  installed : Option Nat
  loops : List LoopPhase
  notes : List Note
  currentSong : Option (Str × Str)
deriving DecidableEq

/-- The state of a conversation with no queue activity yet. -/
def emptyState : SchedState := ⟨[], none, [], [], none⟩

/-- The queue dict at arena index `r`. -/
def getRecord (s : SchedState) (r : Nat) : QueueData := s.store.getD r default

/-- Replace the queue dict at arena index `r` (a mutation of that dict). -/
def setRecord (s : SchedState) (r : Nat) (qd : QueueData) : SchedState :=
  { s with store := s.store.set r qd }

/-- Set the phase of loop `i`. -/
def setLoop (s : SchedState) (i : Nat) (ph : LoopPhase) : SchedState :=
  { s with loops := s.loops.set i ph }

/-- Embeds `play_playlist_sequentially` (src/main.py lines 373-408): refuse an empty
playlist; otherwise install a fresh queue dict at position 0 in the map entry,
send the initial now-playing notification, and spawn one
`auto_play_sequence` task (`asyncio.create_task`). -/
def play_playlist_sequentially (s : SchedState) (playlist_name : Str)
    (songs : List Str) (requested_by : Str) : SchedState :=
  if songs.isEmpty then { s with notes := s.notes ++ [Note.emptyPlaylist] }
  else
    let qd : QueueData :=
      ⟨songs, songs.headD [], 0, playlist_name, requested_by, true⟩
    { s with
      store := s.store ++ [qd]
      installed := some s.store.length
      loops := s.loops ++ [LoopPhase.atTop]
      notes := s.notes ++ [Note.nowPlaying (songs.headD [])] }

/-- One atomic step of the `auto_play_sequence` task `i`
(src/main.py lines 410-453).  At the loop head: exit if the map entry is gone
or the (fresh) entry has `auto_play` false, else capture the entry and sleep.
On wake: exit if the map entry is gone; otherwise increment `current_index` of the *captured*
dict; if it reached the end of the captured queue, send the
completed notification, delete the map entry and exit; else update
`current_song`, send the next now-playing notification and return to the
loop head. -/
def loopStep (s : SchedState) (i : Nat) : SchedState :=
  match s.loops.getD i LoopPhase.exited with
  | LoopPhase.exited => s
  | LoopPhase.atTop =>
    match s.installed with
    | none => setLoop s i LoopPhase.exited
    | some r =>
      if (getRecord s r).auto_play then setLoop s i (LoopPhase.sleeping r)
      else setLoop s i LoopPhase.exited
  | LoopPhase.sleeping r =>
    match s.installed with
    | none => setLoop s i LoopPhase.exited
    | some _ =>
      let qd := getRecord s r
      let idx := qd.current_index + 1
      if idx ≥ qd.queue.length then
        { (setLoop (setRecord s r { qd with current_index := idx }) i LoopPhase.exited) with
          installed := none
          notes := s.notes ++ [Note.completed] }
      else
        let song := qd.queue.getD idx []
        { (setLoop (setRecord s r
            { qd with current_index := idx, current_song := song }) i LoopPhase.atTop) with
          notes := s.notes ++ [Note.nowPlaying song] }

/-- Embeds `next_command` (src/main.py lines 492-524): no map entry — reply
no-active-queue; `current_index >= len(queue) - 1` (Python integers, so the
subtraction is over ℤ) — reply finished and delete the entry; otherwise
advance by one and announce the new current song. -/
def next_command (s : SchedState) : SchedState :=
  match s.installed with
  | none => { s with notes := s.notes ++ [Note.noActiveQueue] }
  | some r =>
    let qd := getRecord s r
    if (qd.current_index : Int) ≥ (qd.queue.length : Int) - 1 then
      { s with installed := none, notes := s.notes ++ [Note.finishedLast] }
    else
      let idx := qd.current_index + 1
      let song := qd.queue.getD idx []
      { (setRecord s r { qd with current_index := idx, current_song := song }) with
        notes := s.notes ++ [Note.nowPlaying song] }

/-- Embeds `stop_command` (src/main.py lines 526-551): no map entry — reply
no-active-queue; otherwise report `played = current_index + 1` of
`total = len(queue)`, set `auto_play` false and delete the map entry. -/
def stop_command (s : SchedState) : SchedState :=
  match s.installed with
  | none => { s with notes := s.notes ++ [Note.noActiveQueue] }
  | some r =>
    let qd := getRecord s r
    { (setRecord s r { qd with auto_play := false }) with
      installed := none
      notes := s.notes ++ [Note.stopped (qd.current_index + 1) qd.queue.length] }

/-- Embeds `play_single_song_from_playlist` (src/main.py lines 455-471): announce the
song and store it in `group_current_song[chat_id]`; the queue map is untouched. -/
def play_single_song_from_playlist (s : SchedState) (song playlist : Str) : SchedState :=
  { s with notes := s.notes ++ [Note.singleSong song], currentSong := some (song, playlist) }

/-- Embeds `play_general_song` (src/main.py lines 473-489). -/
def play_general_song (s : SchedState) (song : Str) : SchedState :=
  { s with
    notes := s.notes ++ [Note.singleSong song]
    currentSong := some (song, "General".toList) }

/-- The kind of Telegram chat a message arrives in. -/
inductive ChatType : Type
  | priv
  | group
  | supergroup
  | channel
deriving DecidableEq

/-- Python `' '.join(args).strip('"').strip("'")` of `play_command`. -/
def joinArgs (args : List Str) : Str :=
  let j := (args.intersperse [' ']).flatten
  let stripChar := fun (c : Char) (s : Str) =>
    ((s.dropWhile (· = c)).reverse.dropWhile (· = c)).reverse
  stripChar apos (stripChar '"' j)

/-- Embeds `play_command` (src/main.py lines 337-371): in a private chat reply with
the groups-only redirect and change nothing else; with no arguments show the
help text; otherwise play the matching playlist sequentially, else a matching
single song, else the query as a general song. -/
def play_command (s : SchedState) (chatType : ChatType) (args : List Str)
    (upl : UserPlaylists) (user_name : Str) : SchedState :=
  if chatType = ChatType.priv then
    { s with notes := s.notes ++ [Note.redirectPrivate] }
  else
    match args with
    | [] => { s with notes := s.notes ++ [Note.playHelp] }
    | _ =>
      let query := joinArgs args
      match find_playlist_by_name upl query with
      | some (name, pd) => play_playlist_sequentially s name pd.songs user_name
      | none =>
        match find_song_in_user_playlists upl query with
        | some (song, plname) => play_single_song_from_playlist s song plname
        | none => play_general_song s query

/-- Embeds `handle_message` (src/main.py lines 743-827), projected to the state it
can affect: in a private chat a detected playlist creation with a non-empty
item list updates the playlist store, and everything else falls through to
the LLM reply — the queue map is never touched; in a group or supergroup a
detected natural-language playlist request starts sequential play of the
matching playlist (else replies not-found), and other messages at most
produce an LLM reply.  Memory writes (`add_to_memory`) are outside the
modelled state. -/
def handle_message (s : SchedState) (store : PlaylistStore) (chatType : ChatType)
    (user_id : Nat) (user_name now msg : Str) : SchedState × PlaylistStore :=
  match chatType with
  | ChatType.priv =>
    match detect_playlist_creation msg with
    | some (name, songsText) =>
      let songs := extract_songs_from_text songsText
      if songs ≠ [] then
        ({ s with notes := s.notes ++ [Note.playlistCreated name] },
          add_to_playlist store user_id name songs user_name now)
      else ({ s with notes := s.notes ++ [Note.llmReply] }, store)
    | none => ({ s with notes := s.notes ++ [Note.llmReply] }, store)
  | ChatType.group | ChatType.supergroup =>
    match detect_playlist_request msg with
    | some q =>
      match find_playlist_by_name ((lookupA store user_id).getD []) q with
      | some (name, pd) =>
        (play_playlist_sequentially s name pd.songs user_name, store)
      | none => ({ s with notes := s.notes ++ [Note.playlistNotFound q] }, store)
    | none => ({ s with notes := s.notes ++ [Note.llmReply] }, store)
  | ChatType.channel => (s, store)

/-- The step alphabet for queue-trace reasoning: one atomic step of scheduler
loop `i`, or a `/next` skip. -/
inductive Step : Type
  | tick (i : Nat)
  | skip
deriving DecidableEq

/-- Execute one step. -/
def stepFn (s : SchedState) : Step → SchedState
  | Step.tick i => loopStep s i
  | Step.skip => next_command s

/-- Execute a list of steps in order. -/
def execSteps (s : SchedState) (steps : List Step) : SchedState :=
  steps.foldl stepFn s

/-- The number of now-playing notifications in a notification list. -/
def npCount (notes : List Note) : Nat :=
  (notes.filter (fun n => match n with | Note.nowPlaying _ => true | _ => false)).length

/-- The number of scheduler loops that have not terminated. -/
def liveLoops (s : SchedState) : Nat :=
  (s.loops.filter (fun lp => lp ≠ LoopPhase.exited)).length


/- ### Concrete traces and states used by individual claim theorems. -/

/-- Start a two-song queue in a fresh conversation. -/
def c1Trace0 : SchedState :=
  play_playlist_sequentially emptyState "p".toList ["a".toList, "b".toList] "u".toList

/-- The first scheduler loop passes its loop head and goes to sleep. -/
def c1Trace1 : SchedState := loopStep c1Trace0 0

/-- A second start for the same conversation while the first loop sleeps. -/
def c1Trace2 : SchedState :=
  play_playlist_sequentially c1Trace1 "p".toList ["a".toList, "b".toList] "u".toList

/-- The superseded first loop wakes and still advances (its captured, stale dict). -/
def c1Trace3 : SchedState := loopStep c1Trace2 0

/-- The first loop passes its loop head again, now capturing the new dict. -/
def c1Trace4 : SchedState := loopStep c1Trace3 0

/-- The second loop passes its loop head, capturing the same new dict. -/
def c1Trace5 : SchedState := loopStep c1Trace4 1

/-- A one-element queue state used to witness the amended C1 theorem. -/
def c1WitState : SchedState :=
  ⟨[⟨["x".toList], "x".toList, 0, "q".toList, "v".toList, true⟩],
    some 0, [LoopPhase.atTop], [], none⟩

/-- A three-song mid-queue state used to witness the C4 theorem. -/
def c4WitState : SchedState :=
  ⟨[⟨["a".toList, "b".toList, "c".toList], "a".toList, 0, "p".toList, "u".toList, true⟩],
    some 0, [LoopPhase.atTop], [], none⟩

/-- A two-song mid-queue state used to witness the C7 theorem. -/
def c7WitState : SchedState :=
  ⟨[⟨["a".toList, "b".toList], "b".toList, 1, "p".toList, "u".toList, true⟩],
    some 0, [LoopPhase.sleeping 0], [], none⟩

/-- A store holding one playlist with one song, used by the C3 counterexample:
the same item in different casing is appended again. -/
def c3Store : PlaylistStore :=
  [(1, [("chill".toList, ⟨["song1".toList], "d".toList, "u".toList⟩)])]

/-- The inductive invariant behind claim C2: starting from a single
`play_playlist_sequentially` call on `songs` and applying any interleaving of
scheduler ticks and skips, the conversation owns exactly one queue dict whose
queue is `songs`, every loop phase refers to it, and the now-playing
notification count is bounded by `current_index + 1` while the queue is
installed and by `songs.length` after removal. -/
def C2Inv (songs : List Str) (s : SchedState) : Prop :=
  ∃ qd, s.store = [qd] ∧ qd.queue = songs
    ∧ (∀ lp ∈ s.loops,
        lp = LoopPhase.atTop ∨ lp = LoopPhase.sleeping 0 ∨ lp = LoopPhase.exited)
    ∧ (s.installed = none ∨ s.installed = some 0)
    ∧ (s.installed = some 0 →
        qd.current_index < songs.length ∧ npCount s.notes ≤ qd.current_index + 1)
    ∧ (s.installed = none → npCount s.notes ≤ songs.length)

/- ### Helper lemmas -/

/-- An element fetched by `getElem?` pins the index below the length. -/
theorem lt_length_of_some {α : Type} {l : List α} {r : Nat} {a : α}
    (h : l[r]? = some a) : r < l.length := by
  by_contra hge
  rw [List.getElem?_eq_none (Nat.le_of_not_lt hge)] at h
  cases h

/-- Lemma: `getRecord` agrees with a `getElem?` hypothesis. -/
theorem getRecord_eq {s : SchedState} {r : Nat} {qd : QueueData}
    (h : s.store[r]? = some qd) : getRecord s r = qd := by
  simp [getRecord, List.getD_eq_getD_get?, List.get?_eq_getElem?, h]

/- ### Claim C1 -/

/-- C1: counterexample.  The claim says a start issued while a queue already
exists retires the old loop (sets its liveness flag false) before installing
the new QueueState, so two loops never advance the queue of the same conversation.
In the trace start → loop sleeps → start: the old queue dict still has
`auto_play = true`, two scheduler loops are live, the superseded loop still
emits a further now-playing notification on its next wake, and afterwards both
loops are asleep holding the same new queue dict. -/
theorem C1_start_retire_counterexample :
    (getRecord c1Trace2 0).auto_play = true
    ∧ liveLoops c1Trace2 = 2
    ∧ npCount c1Trace3.notes = npCount c1Trace2.notes + 1
    ∧ c1Trace5.loops = [LoopPhase.sleeping 1, LoopPhase.sleeping 1] := by
  decide

/-- C1 (amended): a superseding start installs the new QueueState as the only
map entry but does not retire the old loop: the old queue dict is left
untouched (its `auto_play` flag is not cleared) and every previously spawned
loop remains, with one more spawned. -/
theorem C1_start_never_retires_amended (s : SchedState) (name rb : Str)
    (songs : List Str) (h : songs ≠ []) (r : Nat) (qd : QueueData)
    (_hr : s.installed = some r) (hq : s.store[r]? = some qd) :
    (play_playlist_sequentially s name songs rb).store[r]? = some qd
    ∧ (play_playlist_sequentially s name songs rb).installed = some s.store.length
    ∧ (play_playlist_sequentially s name songs rb).loops = s.loops ++ [LoopPhase.atTop] := by
  have hlt : r < s.store.length := lt_length_of_some hq
  have hne : songs.isEmpty = false := by simpa [List.isEmpty_eq_false] using h
  refine ⟨?_, ?_, ?_⟩ <;>
    simp [play_playlist_sequentially, hne, List.getElem?_append_left hlt, hq]

/-- C1 (amended), witness at a concrete one-queue state. -/
theorem C1_start_never_retires_witness :
    (play_playlist_sequentially c1WitState "p".toList ["a".toList] "u".toList).store[0]?
      = some ⟨["x".toList], "x".toList, 0, "q".toList, "v".toList, true⟩
    ∧ (play_playlist_sequentially c1WitState "p".toList ["a".toList] "u".toList).installed
      = some 1
    ∧ (play_playlist_sequentially c1WitState "p".toList ["a".toList] "u".toList).loops
      = [LoopPhase.atTop] ++ [LoopPhase.atTop] :=
  C1_start_never_retires_amended c1WitState "p".toList "u".toList ["a".toList]
    (by decide) 0 ⟨["x".toList], "x".toList, 0, "q".toList, "v".toList, true⟩ rfl rfl

/- ### Claim C4 -/

/-- C4: `next_command` fails with the no-active-queue reply when the
conversation has no queue map entry (leaving the state otherwise unchanged);
with `position` at the last index it removes the QueueState and reports
completion without touching any queue dict; otherwise it advances the
position by exactly one and announces the new current item. -/
theorem C4_next_command_spec (s : SchedState) :
    (s.installed = none →
      next_command s = { s with notes := s.notes ++ [Note.noActiveQueue] })
    ∧ ∀ r qd, s.installed = some r → s.store[r]? = some qd →
        (qd.current_index = qd.queue.length - 1 →
          (next_command s).installed = none
          ∧ (next_command s).notes = s.notes ++ [Note.finishedLast]
          ∧ (next_command s).store = s.store)
        ∧ (qd.current_index + 1 < qd.queue.length →
          (next_command s).installed = some r
          ∧ (next_command s).store[r]? =
              some { qd with current_index := qd.current_index + 1
                             current_song := qd.queue.getD (qd.current_index + 1) [] }
          ∧ (next_command s).notes =
              s.notes ++ [Note.nowPlaying (qd.queue.getD (qd.current_index + 1) [])]) := by
  constructor
  · intro h
    simp [next_command, h]
  · intro r qd hr hq
    have hlt : r < s.store.length := lt_length_of_some hq
    have hrec : getRecord s r = qd := getRecord_eq hq
    constructor
    · intro hlast
      simp only [next_command, hr]
      split
      · exact ⟨rfl, rfl, rfl⟩
      · rename_i hcond
        rw [hrec] at hcond
        omega
    · intro hmid
      simp only [next_command, hr]
      split
      · rename_i hcond
        rw [hrec] at hcond
        omega
      · refine ⟨hr, ?_, ?_⟩
        · simp [setRecord, List.getElem?_set_self hlt, hrec]
        · simp [setRecord, hrec]

/-- C4, witness: skipping from position 0 of a three-song queue advances to
position 1 and announces the second song. -/
theorem C4_next_command_witness :
    (next_command c4WitState).installed = some 0
    ∧ (next_command c4WitState).store[0]? =
        some { (⟨["a".toList, "b".toList, "c".toList], "a".toList, 0,
                  "p".toList, "u".toList, true⟩ : QueueData) with
                current_index := 0 + 1
                current_song := ["a".toList, "b".toList, "c".toList].getD (0 + 1) [] }
    ∧ (next_command c4WitState).notes =
        ([] : List Note) ++
          [Note.nowPlaying (["a".toList, "b".toList, "c".toList].getD (0 + 1) [])] :=
  ((C4_next_command_spec c4WitState).2 0
    ⟨["a".toList, "b".toList, "c".toList], "a".toList, 0, "p".toList, "u".toList, true⟩
    rfl rfl).2 (by decide)

/- ### Claim C7 -/

/-- C7: `stop_command` fails with the no-active-queue reply when the
conversation has no queue map entry (leaving the state otherwise unchanged);
otherwise it clears the `auto_play` flag of the queue dict, removes the map entry,
and reports `played = position + 1` of `total = len(items)`. -/
theorem C7_stop_command_spec (s : SchedState) :
    (s.installed = none →
      stop_command s = { s with notes := s.notes ++ [Note.noActiveQueue] })
    ∧ ∀ r qd, s.installed = some r → s.store[r]? = some qd →
        (stop_command s).installed = none
        ∧ (stop_command s).store[r]? = some { qd with auto_play := false }
        ∧ (stop_command s).notes =
            s.notes ++ [Note.stopped (qd.current_index + 1) qd.queue.length] := by
  constructor
  · intro h
    simp [stop_command, h]
  · intro r qd hr hq
    have hlt : r < s.store.length := lt_length_of_some hq
    have hrec : getRecord s r = qd := getRecord_eq hq
    refine ⟨?_, ?_, ?_⟩
    · simp [stop_command, hr]
    · simp [stop_command, hr, setRecord, List.getElem?_set_self hlt, hrec]
    · simp [stop_command, hr, hrec]

/-- C7, witness: stopping a two-song queue at position 1 reports 2 of 2,
clears the flag and removes the entry. -/
theorem C7_stop_command_witness :
    (stop_command c7WitState).installed = none
    ∧ (stop_command c7WitState).store[0]? =
        some { (⟨["a".toList, "b".toList], "b".toList, 1,
                  "p".toList, "u".toList, true⟩ : QueueData) with auto_play := false }
    ∧ (stop_command c7WitState).notes =
        ([] : List Note) ++ [Note.stopped (1 + 1) ["a".toList, "b".toList].length] :=
  (C7_stop_command_spec c7WitState).2 0
    ⟨["a".toList, "b".toList], "b".toList, 1, "p".toList, "u".toList, true⟩ rfl rfl

/- ### Claim C10 -/

/-- C10: in a private chat the `/play` command only sends the groups-only
redirect (installing no queue), and `handle_message` never changes the queue
map, the scheduler loops or the queue dicts — natural-language playback
requests are acted on only in group chats. -/
theorem C10_private_no_queue (s : SchedState) (store : PlaylistStore) (args : List Str)
    (upl : UserPlaylists) (user_id : Nat) (user_name now msg : Str) :
    play_command s ChatType.priv args upl user_name
      = { s with notes := s.notes ++ [Note.redirectPrivate] }
    ∧ (handle_message s store ChatType.priv user_id user_name now msg).1.installed
        = s.installed
    ∧ (handle_message s store ChatType.priv user_id user_name now msg).1.loops = s.loops
    ∧ (handle_message s store ChatType.priv user_id user_name now msg).1.store = s.store := by
  refine ⟨by simp [play_command], ?_, ?_, ?_⟩ <;>
  · unfold handle_message
    cases hdet : detect_playlist_creation msg with
    | none => simp
    | some p =>
      obtain ⟨name, st⟩ := p
      by_cases hsongs : extract_songs_from_text st ≠ [] <;> simp [hsongs]

/- ### Claim C3 -/

/-- Updating an association-list key with the value it already holds is the
identity (dict assignment of an unchanged value). -/
theorem lookupA_setA_self {κ α : Type} [DecidableEq κ] (l : List (κ × α)) (k : κ) (v : α)
    (h : lookupA l k = some v) : setA l k v = l := by
  induction l with
  | nil => cases h
  | cons kv t ih =>
    obtain ⟨k', v'⟩ := kv
    by_cases hk : k' = k
    · subst hk
      rw [lookupA, if_pos rfl] at h
      injection h with h'
      simp [setA, h']
    · simp only [lookupA, if_neg hk] at h
      simp [setA, hk, ih h]

/-- The song-append fold of `add_to_playlist` is the identity when every
incoming song is already present verbatim. -/
theorem foldl_dedupe_of_mem (songs : List Str) (acc : List Str)
    (h : ∀ s ∈ songs, s ∈ acc) :
    songs.foldl (fun acc song => if song ∈ acc then acc else acc ++ [song]) acc = acc := by
  induction songs with
  | nil => rfl
  | cons s t ih =>
    have hs : s ∈ acc := h s (by simp)
    simp only [List.foldl_cons, if_pos hs]
    exact ih (fun x hx => h x (by simp [hx]))

/-- C3: counterexample.  The claim says append dedupes case-insensitively.
The store already holds the song "song1"; appending "SONG1" — the same item
under case-insensitive comparison (third conjunct) — grows the collection
from one to two songs, because `add_to_playlist` compares with Python `in`,
i.e. exact equality. -/
theorem C3_case_insensitive_counterexample :
    (collectionSongs (add_to_playlist c3Store 1 "chill".toList ["SONG1".toList]
        "u".toList "d".toList) 1 "chill".toList).length = 2
    ∧ (collectionSongs c3Store 1 "chill".toList).length = 1
    ∧ pyLower "SONG1".toList = pyLower "song1".toList := by
  decide

/-- C3 (amended): dedup is by exact (case-sensitive) comparison — when the
user and the playlist exist and every appended item is already present
verbatim, `add_to_playlist` is the identity on the store, so appending an
exactly-present item never increases the size of the collection. -/
theorem C3_exact_dedupe_amended (store : PlaylistStore) (user_id : Nat)
    (playlist_name : Str) (songs : List Str) (user_name now : Str)
    (upl : UserPlaylists) (pd : PlaylistData)
    (h1 : lookupA store user_id = some upl)
    (h2 : lookupA upl playlist_name = some pd)
    (h3 : ∀ s ∈ songs, s ∈ pd.songs) :
    add_to_playlist store user_id playlist_name songs user_name now = store := by
  unfold add_to_playlist
  simp only [h1, h2, Option.isNone_some, Bool.false_eq_true, if_false, Option.getD_some]
  rw [foldl_dedupe_of_mem songs pd.songs h3]
  have heta : ({ pd with songs := pd.songs } : PlaylistData) = pd := rfl
  rw [heta, lookupA_setA_self upl playlist_name pd h2,
    lookupA_setA_self store user_id upl h1]

/-- C3 (amended), witness: re-appending the exact song "song1" leaves the
store untouched. -/
theorem C3_exact_dedupe_witness :
    add_to_playlist c3Store 1 "chill".toList ["song1".toList] "u".toList "d".toList
      = c3Store :=
  C3_exact_dedupe_amended c3Store 1 "chill".toList ["song1".toList] "u".toList "d".toList
    [("chill".toList, ⟨["song1".toList], "d".toList, "u".toList⟩)]
    ⟨["song1".toList], "d".toList, "u".toList⟩ (by decide) (by decide) (by decide)

/- ### Claim C8 -/

/-- The name component produced by the creation-pattern loop depends only on
the lowercased message (the original message only feeds the items text of the
one-group patterns). -/
theorem tryCreationPatterns_fst_only_ml (ml m m' : Str) :
    ∀ pats, (tryCreationPatterns m ml pats).map Prod.fst
      = (tryCreationPatterns m' ml pats).map Prod.fst := by
  intro pats
  induction pats with
  | nil => rfl
  | cons p rest ih =>
    simp only [tryCreationPatterns]
    cases hr : reSearch p ml with
    | none => exact ih
    | some ce =>
      obtain ⟨caps, e⟩ := ce
      match caps with
      | [] => rfl
      | [g1] => rfl
      | [g1, g2] => rfl
      | g1 :: g2 :: g3 :: gs => rfl

/-- C8: counterexample.  The claim says the stored name preserves the casing
the user wrote.  For the utterance containing "CHILL" the classified (and
stored) name is "chill": the display form is lowercased, not preserved. -/
theorem C8_display_form_counterexample :
    detect_playlist_creation "my CHILL playlist: song1, song2".toList
      = some ("chill".toList, "song1, song2".toList)
    ∧ "chill".toList ≠ "CHILL".toList := by
  exact ⟨by decide, by decide⟩

/-- C8 (amended): the extracted collection name depends only on the
case-folded utterance — two utterances equal up to case always yield the same
stored name, so creation keying is case-insensitive via lowercasing, while
the original casing of the user is dropped. -/
theorem C8_casefold_name_amended (m1 m2 : Str) (h : pyLower m1 = pyLower m2) :
    (detect_playlist_creation m1).map Prod.fst
      = (detect_playlist_creation m2).map Prod.fst := by
  simp only [detect_playlist_creation]
  rw [h]
  have hk := tryCreationPatterns_fst_only_ml (pyLower m2) m1 m2 playlist_patterns
  cases h1 : tryCreationPatterns m1 (pyLower m2) playlist_patterns with
  | none =>
    cases h2 : tryCreationPatterns m2 (pyLower m2) playlist_patterns with
    | none => rfl
    | some r2 => rw [h1, h2] at hk; simp at hk
  | some r1 =>
    cases h2 : tryCreationPatterns m2 (pyLower m2) playlist_patterns with
    | none => rw [h1, h2] at hk; simp at hk
    | some r2 =>
      rw [h1, h2] at hk
      simpa using hk

/-- C8 (amended), witness: "my CHILL playlist: song1, song2" and its
lowercased form classify to the same name. -/
theorem C8_casefold_name_witness :
    (detect_playlist_creation "my CHILL playlist: song1, song2".toList).map Prod.fst
      = (detect_playlist_creation "my chill playlist: song1, song2".toList).map Prod.fst :=
  C8_casefold_name_amended "my CHILL playlist: song1, song2".toList
    "my chill playlist: song1, song2".toList (by decide)

/- ### Claim C9 -/

/-- C9: the utterance "my chill playlist: song1, song2" classifies as a
collection creation named "chill" with items ["song1", "song2"], and never as
a choice request. -/
theorem C9_creation_classification :
    classify "my chill playlist: song1, song2".toList
      = Intent.CreateCollection "chill".toList ["song1".toList, "song2".toList]
    ∧ ∀ opts, classify "my chill playlist: song1, song2".toList
        ≠ Intent.ChoiceRequest opts := by
  have hc : classify "my chill playlist: song1, song2".toList
      = Intent.CreateCollection "chill".toList ["song1".toList, "song2".toList] := by
    decide
  exact ⟨hc, fun opts h => by rw [hc] at h; cases h⟩

/-- C9, witness instance of the never-a-choice conjunct. -/
theorem C9_creation_witness :
    classify "my chill playlist: song1, song2".toList
      ≠ Intent.ChoiceRequest ["song1".toList, "song2".toList] :=
  C9_creation_classification.2 ["song1".toList, "song2".toList]

/- ### Claim C5 -/

/-- An accepted choice detection always carries at least two options. -/
theorem detect_choice_min_options (m : Str) (opts : List Str)
    (h : detect_choice m = some opts) : 2 ≤ opts.length := by
  simp only [detect_choice] at h
  split at h
  · split at h
    · rename_i hlen
      injection h with h'
      exact h' ▸ hlen
    · cases h
  · cases h

/-- C5: the utterance "should i watch Movie A or Movie B?" classifies as a
choice request with options ["Movie A", "Movie B"], and every classified
choice request carries at least two extracted options. -/
theorem C5_choice_classification :
    classify "should i watch Movie A or Movie B?".toList
      = Intent.ChoiceRequest ["Movie A".toList, "Movie B".toList]
    ∧ ∀ m opts, classify m = Intent.ChoiceRequest opts → 2 ≤ opts.length := by
  constructor
  · decide
  · intro m opts h
    unfold classify at h
    cases hcr : detect_playlist_creation m with
    | some p =>
      obtain ⟨name, st⟩ := p
      rw [hcr] at h
      dsimp only at h
      split at h <;> cases h
    | none =>
      rw [hcr] at h
      cases hrq : detect_playlist_request m with
      | some q => rw [hrq] at h; cases h
      | none =>
        rw [hrq] at h
        cases hdc : detect_choice m with
        | some opts2 =>
          rw [hdc] at h
          injection h with h'
          exact h' ▸ detect_choice_min_options m opts2 hdc
        | none => rw [hdc] at h; cases h

/-- C5, witness instance of the at-least-two-options conjunct at the example
utterance. -/
theorem C5_choice_witness :
    2 ≤ (["Movie A".toList, "Movie B".toList] : List Str).length :=
  C5_choice_classification.2 "should i watch Movie A or Movie B?".toList
    ["Movie A".toList, "Movie B".toList] (by decide)

/- ### Claim C2 -/

/-- Appending a now-playing notification increments the now-playing count. -/
theorem npCount_append_np (l : List Note) (s : Str) :
    npCount (l ++ [Note.nowPlaying s]) = npCount l + 1 := by
  simp [npCount, List.filter_append]

/-- Appending any other notification leaves the now-playing count unchanged. -/
theorem npCount_append_other (l : List Note) (n : Note)
    (h : ∀ s, n ≠ Note.nowPlaying s) :
    npCount (l ++ [n]) = npCount l := by
  cases n <;> first
    | exact absurd rfl (h _)
    | simp [npCount, List.filter_append]

/-- A `getD` value is a member of the list or the default. -/
theorem getD_mem_or_eq {α : Type} (l : List α) (i : Nat) (d : α) :
    l.getD i d ∈ l ∨ l.getD i d = d := by
  by_cases hlt : i < l.length
  · rw [List.getD_eq_getElem l d hlt]
    exact Or.inl (List.getElem_mem hlt)
  · exact Or.inr (List.getD_eq_default l d (Nat.le_of_not_lt hlt))

/-- Setting a loop phase drawn from the allowed set preserves the allowed set. -/
theorem loops_set_ok {loops : List LoopPhase} {i : Nat} {ph : LoopPhase}
    (hl : ∀ lp ∈ loops,
      lp = LoopPhase.atTop ∨ lp = LoopPhase.sleeping 0 ∨ lp = LoopPhase.exited)
    (hph : ph = LoopPhase.atTop ∨ ph = LoopPhase.sleeping 0 ∨ ph = LoopPhase.exited) :
    ∀ lp ∈ loops.set i ph,
      lp = LoopPhase.atTop ∨ lp = LoopPhase.sleeping 0 ∨ lp = LoopPhase.exited := by
  intro lp hmem
  rcases List.mem_or_eq_of_mem_set hmem with hmem | rfl
  · exact hl lp hmem
  · exact hph

/-- Every scheduler tick or skip preserves the C2 invariant. -/
theorem C2Inv_step (songs : List Str) (s : SchedState) (st : Step)
    (h : C2Inv songs s) : C2Inv songs (stepFn s st) := by
  obtain ⟨qd, hst, hq, hl, hi, hs, hn⟩ := h
  have hrec : getRecord s 0 = qd := by simp [getRecord, hst]
  cases st with
  | skip =>
    show C2Inv songs (next_command s)
    rcases hi with hi | hi
    · rw [show next_command s = { s with notes := s.notes ++ [Note.noActiveQueue] } by
        simp [next_command, hi]]
      refine ⟨qd, hst, hq, hl, Or.inl hi, ?_, ?_⟩
      · intro h0; rw [hi] at h0; cases h0
      · intro _
        rw [npCount_append_other _ _ (by intro s'; simp)]
        exact hn hi
    · obtain ⟨hlt, hcnt⟩ := hs hi
      simp only [next_command, hi]
      rw [hrec]
      split
      · rename_i hcond
        refine ⟨qd, hst, hq, hl, Or.inl rfl, ?_, ?_⟩
        · intro h0; cases h0
        · intro _
          rw [npCount_append_other _ _ (by intro s'; simp)]
          omega
      · rename_i hcond
        rw [hq] at hcond
        refine ⟨{ qd with current_index := qd.current_index + 1
                          current_song := qd.queue.getD (qd.current_index + 1) [] },
          ?_, hq, hl, Or.inr hi, ?_, ?_⟩
        · simp [setRecord, hst]
        · intro _
          refine ⟨by dsimp; omega, ?_⟩
          rw [npCount_append_np]
          dsimp
          omega
        · intro h0; simp [setRecord, hi] at h0
  | tick i =>
    show C2Inv songs (loopStep s i)
    rcases hgd : s.loops.getD i LoopPhase.exited with _ | r | _
    · -- at the loop head
      rcases hi with hi | hi
      · simp only [loopStep, hgd, hi]
        refine ⟨qd, hst, hq, loops_set_ok hl (Or.inr (Or.inr rfl)), Or.inl hi, ?_, hn⟩
        intro h0
        simp [setLoop, hi] at h0
      · simp only [loopStep, hgd, hi]
        split
        · exact ⟨qd, hst, hq, loops_set_ok hl (Or.inr (Or.inl rfl)), Or.inr hi, hs, hn⟩
        · exact ⟨qd, hst, hq, loops_set_ok hl (Or.inr (Or.inr rfl)), Or.inr hi, hs, hn⟩
    · -- sleeping: the captured record can only be record 0
      have hr0 : r = 0 := by
        rcases getD_mem_or_eq s.loops i LoopPhase.exited with hmem | hdef
        · rw [hgd] at hmem
          rcases hl _ hmem with h' | h' | h'
          · cases h'
          · exact LoopPhase.sleeping.inj h'
          · cases h'
        · rw [hgd] at hdef; cases hdef
      subst hr0
      rcases hi with hi | hi
      · simp only [loopStep, hgd, hi]
        refine ⟨qd, hst, hq, loops_set_ok hl (Or.inr (Or.inr rfl)), Or.inl hi, ?_, hn⟩
        intro h0
        simp [setLoop, hi] at h0
      · obtain ⟨hlt, hcnt⟩ := hs hi
        simp only [loopStep, hgd, hi, hrec]
        split
        · rename_i hcond
          rw [hq] at hcond
          refine ⟨{ qd with current_index := qd.current_index + 1 }, ?_, hq,
            loops_set_ok hl (Or.inr (Or.inr rfl)), Or.inl rfl, ?_, ?_⟩
          · simp [setRecord, setLoop, hst]
          · intro h0; cases h0
          · intro _
            rw [npCount_append_other _ _ (by intro s'; simp)]
            omega
        · rename_i hcond
          rw [hq] at hcond
          refine ⟨{ qd with current_index := qd.current_index + 1
                            current_song := qd.queue.getD (qd.current_index + 1) [] },
            ?_, hq, loops_set_ok hl (Or.inl rfl), Or.inr ?_, ?_, ?_⟩
          · simp [setRecord, setLoop, hst]
          · exact hi
          · intro _
            refine ⟨by dsimp; omega, ?_⟩
            rw [npCount_append_np]
            dsimp
            omega
          · intro h0; simp [setRecord, setLoop, hi] at h0
    · -- exited loops do nothing
      simp only [loopStep, hgd]
      exact ⟨qd, hst, hq, hl, hi, hs, hn⟩

/-- The C2 invariant holds right after a start on a non-empty song list. -/
theorem C2Inv_init (name rb : Str) (songs : List Str) (h : songs ≠ []) :
    C2Inv songs (play_playlist_sequentially emptyState name songs rb) := by
  have hne : songs.isEmpty = false := by simpa [List.isEmpty_eq_false] using h
  refine ⟨⟨songs, songs.headD [], 0, name, rb, true⟩, ?_, rfl, ?_, ?_, ?_, ?_⟩
  · simp [play_playlist_sequentially, hne, emptyState]
  · intro lp hlp
    simp [play_playlist_sequentially, hne, emptyState] at hlp
    subst hlp
    exact Or.inl rfl
  · right
    simp [play_playlist_sequentially, hne, emptyState]
  · intro _
    constructor
    · simpa [List.length_pos] using h
    · simp [play_playlist_sequentially, hne, emptyState, npCount]
  · intro h0
    simp [play_playlist_sequentially, hne, emptyState] at h0

/-- The C2 invariant is preserved by any interleaving of ticks and skips. -/
theorem C2Inv_run (songs : List Str) (s : SchedState) (h : C2Inv songs s)
    (steps : List Step) : C2Inv songs (execSteps s steps) := by
  induction steps generalizing s with
  | nil => exact h
  | cons st t ih => exact ih (stepFn s st) (C2Inv_step songs s st h)

/-- C2: starting a queue of N songs and running any interleaving of scheduler
ticks and skips, the total number of now-playing notifications (the initial
one included) never exceeds N, and while the QueueState is still installed
its position is strictly below N (hence within [0, N-1]); each tick advances
the one shared queue dict, so a skip between ticks is never overwritten by a
stale copy. -/
theorem C2_tick_skip_bounds (name rb : Str) (songs : List Str) (h : songs ≠ [])
    (steps : List Step) :
    npCount (execSteps (play_playlist_sequentially emptyState name songs rb) steps).notes
      ≤ songs.length
    ∧ ∀ r qd,
        (execSteps (play_playlist_sequentially emptyState name songs rb) steps).installed
          = some r →
        (execSteps (play_playlist_sequentially emptyState name songs rb) steps).store[r]?
          = some qd →
        qd.current_index < songs.length := by
  obtain ⟨qd, hst, hq, hl, hi, hs, hn⟩ :=
    C2Inv_run songs _ (C2Inv_init name rb songs h) steps
  constructor
  · rcases hi with hi | hi
    · exact hn hi
    · obtain ⟨hlt, hcnt⟩ := hs hi
      omega
  · intro r qd' hr hq'
    rcases hi with hi | hi
    · rw [hi] at hr; cases hr
    · rw [hi] at hr
      injection hr with hr'
      subst hr'
      rw [hst] at hq'
      simp at hq'
      subst hq'
      exact (hs hi).1

/-- C2, witness: a two-song queue after one skip and one tick. -/
theorem C2_tick_skip_witness :
    npCount (execSteps (play_playlist_sequentially emptyState "p".toList
        ["a".toList, "b".toList] "u".toList) [Step.skip, Step.tick 0]).notes ≤ 2
    ∧ ∀ r qd,
        (execSteps (play_playlist_sequentially emptyState "p".toList
          ["a".toList, "b".toList] "u".toList) [Step.skip, Step.tick 0]).installed
          = some r →
        (execSteps (play_playlist_sequentially emptyState "p".toList
          ["a".toList, "b".toList] "u".toList) [Step.skip, Step.tick 0]).store[r]?
          = some qd →
        qd.current_index < 2 :=
  C2_tick_skip_bounds "p".toList "u".toList ["a".toList, "b".toList] (by decide)
    [Step.skip, Step.tick 0]

/- ### Claim C6 -/

/-- Lemma: `pySplit` never returns an empty piece list (Python split yields at least
one piece). -/
theorem pySplit_ne_nil (d : Char) (s : Str) : pySplit d s ≠ [] := by
  cases s with
  | nil => simp [pySplit]
  | cons c cs =>
    simp only [pySplit]
    split
    · simp
    · split <;> simp

/-- Every piece of a split draws its characters from the input and contains no
separator. -/
theorem mem_pySplit (d : Char) (s t : Str) (h : t ∈ pySplit d s) :
    (∀ c ∈ t, c ∈ s) ∧ d ∉ t := by
  induction s generalizing t with
  | nil =>
    simp [pySplit] at h
    subst h
    simp
  | cons c cs ih =>
    simp only [pySplit] at h
    split at h
    · rcases List.mem_cons.mp h with rfl | hmem
      · simp
      · obtain ⟨h1, h2⟩ := ih t hmem
        exact ⟨fun c' hc' => List.mem_cons_of_mem _ (h1 c' hc'), h2⟩
    · rename_i hcd
      rcases hr : pySplit d cs with _ | ⟨x, xs⟩
      · exact absurd hr (pySplit_ne_nil d cs)
      · rw [hr] at h
        rcases List.mem_cons.mp h with rfl | hmem
        · have hx := ih x (by rw [hr]; exact List.mem_cons_self _ _)
          constructor
          · intro c' hc'
            rcases List.mem_cons.mp hc' with rfl | hc'
            · exact List.mem_cons_self _ _
            · exact List.mem_cons_of_mem _ (hx.1 c' hc')
          · intro hd
            rcases List.mem_cons.mp hd with heq | hd
            · exact hcd heq.symm
            · exact hx.2 hd
        · obtain ⟨h1, h2⟩ := ih t (by rw [hr]; exact List.mem_cons_of_mem _ hmem)
          exact ⟨fun c' hc' => List.mem_cons_of_mem _ (h1 c' hc'), h2⟩

/-- Stripping only removes characters. -/
theorem mem_of_mem_pyStrip (s : Str) (c : Char) (h : c ∈ pyStrip s) : c ∈ s := by
  unfold pyStrip at h
  rw [List.mem_reverse] at h
  have h1 := (List.dropWhile_suffix (l := (s.dropWhile isPySpace).reverse) isPySpace).sublist.subset h
  rw [List.mem_reverse] at h1
  exact (List.dropWhile_suffix (l := s) isPySpace).sublist.subset h1

/-- The head surviving a `dropWhile` fails the predicate. -/
theorem head_dropWhile_false (p : Char → Bool) (l : Str) :
    ∀ c, (l.dropWhile p).head? = some c → p c = false := by
  induction l with
  | nil => intro c hc; cases hc
  | cons a t ih =>
    intro c hc
    rw [List.dropWhile_cons] at hc
    cases hpa : p a with
    | true =>
      rw [hpa] at hc
      simp only [if_pos rfl] at hc
      exact ih c hc
    | false =>
      rw [hpa] at hc
      simp at hc
      exact hc ▸ hpa

/-- A list whose head fails the predicate is untouched by `dropWhile`. -/
theorem dropWhile_eq_self_of_head {p : Char → Bool} {l : Str}
    (h : ∀ c, l.head? = some c → p c = false) : l.dropWhile p = l := by
  cases l with
  | nil => rfl
  | cons c cs =>
    rw [List.dropWhile_cons]
    simp [h c rfl]

/-- Python `strip` is idempotent. -/
theorem pyStrip_idem (s : Str) : pyStrip (pyStrip s) = pyStrip s := by
  have hpre : ((s.dropWhile isPySpace).reverse.dropWhile isPySpace).reverse
      <+: s.dropWhile isPySpace := by
    have hsuf := List.dropWhile_suffix (l := (s.dropWhile isPySpace).reverse) isPySpace
    have := List.reverse_prefix.mpr hsuf
    rwa [List.reverse_reverse] at this
  have hfront :
      (((s.dropWhile isPySpace).reverse.dropWhile isPySpace).reverse).dropWhile isPySpace
        = ((s.dropWhile isPySpace).reverse.dropWhile isPySpace).reverse := by
    apply dropWhile_eq_self_of_head
    intro c hc
    obtain ⟨t, ht⟩ := hpre
    have hA : (s.dropWhile isPySpace).head? = some c := by
      rw [← ht, List.head?_append, hc]
      rfl
    exact head_dropWhile_false isPySpace s c hA
  show pyStrip (pyStrip s) = pyStrip s
  unfold pyStrip
  rw [show ((((s.dropWhile isPySpace).reverse.dropWhile isPySpace).reverse).dropWhile
        isPySpace) = _ from hfront]
  rw [List.reverse_reverse, List.dropWhile_idempotent]

/-- A piece produced by one splitting round: drawn from some current fragment,
free of the separator, non-empty. -/
theorem mem_splitRound (acc : List Str) (d : Char) (t : Str) (h : t ∈ splitRound acc d) :
    ∃ u ∈ acc, (∀ c ∈ t, c ∈ u) ∧ d ∉ t ∧ t ≠ [] := by
  simp only [splitRound, List.mem_flatMap] at h
  obtain ⟨song, hsong, ht⟩ := h
  rw [List.mem_filter] at ht
  obtain ⟨htm, htne⟩ := ht
  rw [List.mem_map] at htm
  obtain ⟨piece, hpiece, rfl⟩ := htm
  obtain ⟨hsub, hd⟩ := mem_pySplit d song piece hpiece
  refine ⟨song, hsong, ?_, ?_, by simpa using htne⟩
  · intro c hc
    exact hsub c (mem_of_mem_pyStrip piece c hc)
  · intro hd'
    exact hd (mem_of_mem_pyStrip piece d hd')

/-- A fragment surviving the whole splitting fold is drawn from some initial
fragment and contains none of the processed delimiters. -/
theorem mem_foldl_splitRound (ds : List Char) (acc : List Str) (t : Str)
    (h : t ∈ List.foldl splitRound acc ds) :
    ∃ u ∈ acc, (∀ c ∈ t, c ∈ u) ∧ ∀ d ∈ ds, d ∉ t := by
  induction ds generalizing acc with
  | nil => exact ⟨t, h, fun c hc => hc, by simp⟩
  | cons d ds' ih =>
    rw [List.foldl_cons] at h
    obtain ⟨u', hu', hsub', hds'⟩ := ih (splitRound acc d) h
    obtain ⟨u, hu, hsub, hd, _⟩ := mem_splitRound acc d u' hu'
    refine ⟨u, hu, fun c hc => hsub c (hsub' c hc), ?_⟩
    intro d0 hd0
    rcases List.mem_cons.mp hd0 with rfl | hd0
    · intro hmem
      exact hd (hsub' d0 hmem)
    · exact hds' d0 hd0

/-- Every token produced by the clean-up fold is a cleaned fragment that
passed the length filter. -/
theorem mem_clean_foldl (l : List Str) (acc : List Str) (t : Str)
    (h : t ∈ l.foldl cleanStep acc) :
    t ∈ acc ∨ ∃ song ∈ l, t = cleanSong song ∧ t ≠ [] ∧ t.length > 2 := by
  induction l generalizing acc with
  | nil => exact Or.inl h
  | cons s l' ih =>
    rw [List.foldl_cons] at h
    rcases ih _ h with hacc | ⟨song, hsong, hts⟩
    · simp only [cleanStep] at hacc
      split at hacc
      · rename_i hcond
        rcases List.mem_append.mp hacc with h1 | h1
        · exact Or.inl h1
        · rw [List.mem_singleton] at h1
          subst h1
          exact Or.inr ⟨s, List.mem_cons_self _ _, rfl, hcond.1, hcond.2⟩
      · exact Or.inl hacc
    · exact Or.inr ⟨song, List.mem_cons_of_mem _ hsong, hts⟩

/-- Numbering removal only removes characters. -/
theorem mem_of_mem_removeNumbering (s : Str) (c : Char) (h : c ∈ removeNumbering s) :
    c ∈ s := by
  simp only [removeNumbering] at h
  split at h
  · exact h
  · split at h
    · rename_i c0 rest heq
      split at h
      · have h1 : c ∈ c0 :: rest :=
          List.mem_cons_of_mem _ ((List.dropWhile_suffix isPySpace).sublist.subset h)
        rw [← heq] at h1
        exact List.drop_subset _ _ h1
      · exact h
    · exact h

/-- Bullet removal only removes characters. -/
theorem mem_of_mem_removeBullet (s : Str) (c : Char) (h : c ∈ removeBullet s) : c ∈ s := by
  cases s with
  | nil => exact h
  | cons c0 rest =>
    simp only [removeBullet] at h
    split at h
    · exact List.mem_cons_of_mem _ ((List.dropWhile_suffix isPySpace).sublist.subset h)
    · exact h

/-- Token clean-up only removes characters. -/
theorem mem_of_mem_cleanSong (s : Str) (c : Char) (h : c ∈ cleanSong s) : c ∈ s :=
  mem_of_mem_removeNumbering s c
    (mem_of_mem_removeBullet (removeNumbering s) c
      (mem_of_mem_pyStrip (removeBullet (removeNumbering s)) c h))

/-- Splitting a separator-free string returns it whole. -/
theorem pySplit_of_not_mem (d : Char) (t : Str) (h : d ∉ t) : pySplit d t = [t] := by
  induction t with
  | nil => rfl
  | cons c cs ih =>
    have hcd : c ≠ d := fun hc => h (hc ▸ List.mem_cons_self _ _)
    have hcs : d ∉ cs := fun hm => h (List.mem_cons_of_mem _ hm)
    simp [pySplit, ih hcs, hcd]

/-- The splitting fold leaves a delimiter-free, stripped, non-empty token
untouched. -/
theorem foldl_splitRound_fixed (ds : List Char) (t : Str)
    (hd : ∀ d ∈ ds, d ∉ t) (hstrip : pyStrip t = t) (hne : t ≠ []) :
    List.foldl splitRound [t] ds = [t] := by
  induction ds with
  | nil => rfl
  | cons d ds' ih =>
    rw [List.foldl_cons]
    have hone : splitRound [t] d = [t] := by
      simp [splitRound, pySplit_of_not_mem d t (hd d (List.mem_cons_self _ _)),
        hstrip, hne]
    rw [hone]
    exact ih (fun d0 h0 => hd d0 (List.mem_cons_of_mem _ h0))

/-- A token without a numbering head is untouched by numbering removal. -/
theorem removeNumbering_of_not (t : Str) (h : startsNumbering t = false) :
    removeNumbering t = t := by
  simp only [startsNumbering] at h
  simp only [removeNumbering]
  by_cases hds : t.takeWhile Char.isDigit = []
  · rw [if_pos hds]
  · rw [if_neg hds] at h ⊢
    rcases hdrop : t.drop (t.takeWhile Char.isDigit).length with _ | ⟨c, rest⟩
    · simp only [hdrop]
    · simp only [hdrop] at h ⊢
      rw [if_neg (of_decide_eq_false h)]

/-- A token whose characters avoid the bullet characters is untouched by
bullet removal. -/
theorem removeBullet_of_head (t : Str) (h : ∀ c ∈ t, c ≠ '-' ∧ c ≠ '•' ∧ c ≠ '*') :
    removeBullet t = t := by
  cases t with
  | nil => rfl
  | cons c rest =>
    obtain ⟨h1, h2, h3⟩ := h c (List.mem_cons_self _ _)
    simp [removeBullet, h1, h2, h3]

/-- C6: counterexample.  The claim says re-applying the tokenizer to each
produced token yields the same token list.  The items text "1.2.song"
tokenizes to the single token "2.song" (one numbering layer removed), but
re-parsing that token strips a further numbering layer and yields "song". -/
theorem C6_idempotence_counterexample :
    extract_songs_from_text "1.2.song".toList = ["2.song".toList]
    ∧ (extract_songs_from_text "1.2.song".toList).flatMap extract_songs_from_text
        = ["song".toList]
    ∧ ["2.song".toList] ≠ (["song".toList] : List Str) := by
  exact ⟨by decide, by decide, by decide⟩

/-- C6 (amended): every produced token is longer than two characters, and
re-applying the tokenizer to a produced token returns exactly that token
provided the token does not itself begin with a further numbering prefix
(digits followed by a dot or closing parenthesis) — the numbering stripper
removes one layer per pass, which is the only source of non-idempotence. -/
theorem C6_tokenize_amended (text t : Str) (ht : t ∈ extract_songs_from_text text) :
    t.length > 2 ∧ (startsNumbering t = false → extract_songs_from_text t = [t]) := by
  unfold extract_songs_from_text at ht
  rcases mem_clean_foldl _ [] t ht with hacc | ⟨song, hsong, htc, htne, htlen⟩
  · cases hacc
  obtain ⟨u, hu, hsubu, hds⟩ := mem_foldl_splitRound delimiters [text] song hsong
  refine ⟨htlen, ?_⟩
  intro hnum
  have hdt : ∀ d ∈ delimiters, d ∉ t := fun d hd hmem =>
    hds d hd (mem_of_mem_cleanSong song d (htc ▸ hmem))
  have hstrip : pyStrip t = t := by
    rw [htc]
    exact pyStrip_idem (removeBullet (removeNumbering song))
  have hb : removeBullet t = t := by
    apply removeBullet_of_head
    intro c hc
    refine ⟨?_, ?_, ?_⟩ <;> · rintro rfl; exact hdt _ (by decide) hc
  have hclean : cleanSong t = t := by
    unfold cleanSong
    rw [removeNumbering_of_not t hnum, hb, hstrip]
  unfold extract_songs_from_text
  rw [foldl_splitRound_fixed delimiters t hdt hstrip htne]
  simp [cleanStep, hclean, htne, htlen]

/-- C6 (amended), witness: the token "hello" from "hello, world" re-tokenizes
to itself. -/
theorem C6_tokenize_witness :
    ("hello".toList).length > 2
    ∧ (startsNumbering "hello".toList = false →
        extract_songs_from_text "hello".toList = ["hello".toList]) :=
  C6_tokenize_amended "hello, world".toList "hello".toList (by decide)
